import Mathlib

/-! Verification of the data-grid request cache of the sample table app.

The TypeScript `DataCache` class (src/lib/dataCache.ts) is embedded
shallowly: the class fields become `CacheConfig`, the mutable `Map` of
promises becomes an explicit `CacheState` threaded through the
operations, a promise becomes a `Future` value identified by a fresh id
together with the transport URL it was created for, and every transport
call (`fetch(url)`) is recorded in a log.  The provider layer
(`BaseDataProvider`, `JsonServerBaseDataProvider`) is embedded as pure
accessors over a record. -/

namespace TableApp

/-- Decimal digit characters of a natural number, most significant
    first, with an explicit fuel argument making the recursion
    structural.  The fuel is at least the number whenever called through
    `natDecChars`, so the zero-fuel clause is only reached for numbers
    below ten.  This models JavaScript number-to-string conversion used
    by the template literals in the source. -/
def natDecAux : Nat → Nat → List Char
  | 0, n => [Nat.digitChar n]
  | fuel + 1, n =>
    if n < 10 then [Nat.digitChar n]
    else natDecAux fuel (n / 10) ++ [Nat.digitChar (n % 10)]

/-- Decimal digit characters of a natural number. -/
def natDecChars (n : Nat) : List Char := natDecAux n n

/-- Decimal string of a natural number, as produced by JavaScript
    template literals such as `page=(pageIndex)`. -/
def natDec (n : Nat) : String := String.mk (natDecChars n)

/-- Join a list of strings with a separator, as JavaScript `Array.join`. -/
def joinSep (sep : String) : List String → String
  | [] => ""
  | [x] => x
  | x :: y :: ys => x ++ sep ++ joinSep sep (y :: ys)

/-- One entry of TanStack Table SortingState: a column id and a
    descending flag. -/
structure SortEntry where
  id : String
  desc : Bool
deriving DecidableEq

/-- TanStack Table PaginationState. -/
structure PaginationState where
  pageIndex : Nat
  pageSize : Nat
deriving DecidableEq

/-- One entry of TanStack Table ColumnFiltersState: a column id and a
    filter value (stringified, as the source interpolates it into
    template literals). -/
structure ColumnFilter where
  id : String
  value : String
deriving DecidableEq

/-- FetchOptions of src/lib/dataCache.ts.  The open index signature of
    the TypeScript type becomes the `extra` association list, whose
    values stand for the `JSON.stringify` serialization the source
    applies when deriving cache keys. -/
structure FetchOptions where
  sorting : Option (List SortEntry) := none
  pagination : Option PaginationState := none
  columnFilters : Option (List ColumnFilter) := none
  globalFilter : Option String := none
  extra : List (String × String) := []
deriving DecidableEq

/-- Construction-time fields of the DataCache class (dataCache.ts
    lines 19-27). -/
structure CacheConfig where
  baseUrl : String
  endpoint : String
  globalFilterField : Option String := none
deriving DecidableEq

/-- Names excluded by the source when scanning custom options
    (dataCache.ts line 47). -/
def reservedNames : List String := ["sorting", "pagination", "columnFilters", "globalFilter"]

/-- Sort segment of the cache key (dataCache.ts lines 31-33): the JS
    template literal renders the boolean `desc` as "true" or "false". -/
def sortSeg (o : FetchOptions) : String :=
  match o.sorting with
  | some l =>
    if 0 < l.length then
      joinSep "," (l.map fun s => s.id ++ ":" ++ (if s.desc then "true" else "false"))
    else ""
  | none => ""

/-- Page segment of the cache key (dataCache.ts lines 35-37). -/
def pageSeg (o : FetchOptions) : String :=
  match o.pagination with
  | some p => "page=" ++ natDec p.pageIndex ++ ",size=" ++ natDec p.pageSize
  | none => "page=0,size=10"

/-- Global-filter segment of the cache key (dataCache.ts line 39).  The
    JS or-else on a string yields the empty string exactly when the
    filter is absent or itself empty, which is what `Option.getD`
    computes here. -/
def filterSeg (o : FetchOptions) : String := o.globalFilter.getD ""

/-- Column-filter segment of the cache key (dataCache.ts lines 41-43). -/
def columnFilterSeg (o : FetchOptions) : String :=
  match o.columnFilters with
  | some l =>
    if 0 < l.length then joinSep "," (l.map fun f => f.id ++ ":" ++ f.value) else ""
  | none => ""

/-- Custom-options segment of the cache key (dataCache.ts lines 46-49). -/
def customSeg (o : FetchOptions) : String :=
  joinSep "|"
    ((o.extra.filter fun kv => !(reservedNames.contains kv.1)).map
      fun kv => kv.1 ++ ":" ++ kv.2)

/-- getCacheKey (dataCache.ts lines 30-52). -/
def getCacheKey (c : CacheConfig) (o : FetchOptions) : String :=
  c.endpoint ++ "|" ++ sortSeg o ++ "|" ++ pageSeg o ++ "|" ++ filterSeg o ++ "|" ++
    columnFilterSeg o ++ (if customSeg o ≠ "" then "|" ++ customSeg o else "")

/-- The repeated guard of the URL builder: append an ampersand unless
    the URL still ends with the question mark (models the JS snippet
    testing `url.endsWith` before each block, dataCache.ts lines 69-71,
    77-79, 83-85, 91-93, 99-101). -/
def ampIfNeeded (url : String) : String :=
  if url.data.getLast? = some '?' then url else url ++ "&"

/-- Sorting block of the URL builder (dataCache.ts lines 68-73). -/
def sortStage (o : FetchOptions) (url : String) : String :=
  match o.sorting with
  | some l =>
    if 0 < l.length then
      ampIfNeeded url ++ "_sort=" ++
        joinSep "," (l.map fun s => (if s.desc then "-" else "") ++ s.id)
    else url
  | none => url

/-- Pagination block of the URL builder (dataCache.ts lines 76-87). -/
def pageStage (o : FetchOptions) (url : String) : String :=
  match o.pagination with
  | some p =>
    ampIfNeeded url ++ "_page=" ++ natDec (p.pageIndex + 1) ++ "&_per_page=" ++
      natDec p.pageSize
  | none => ampIfNeeded url ++ "_page=1&_per_page=10"

/-- Global-filter block of the URL builder (dataCache.ts lines 90-95). -/
def globalStage (c : CacheConfig) (o : FetchOptions) (url : String) : String :=
  match o.globalFilter, c.globalFilterField with
  | some g, some gf =>
    if g ≠ "" ∧ gf ≠ "" then ampIfNeeded url ++ gf ++ "=" ++ g else url
  | _, _ => url

/-- Column-filter block of the URL builder (dataCache.ts lines 98-103). -/
def columnStage (o : FetchOptions) (url : String) : String :=
  match o.columnFilters with
  | some l =>
    if 0 < l.length then
      ampIfNeeded url ++ joinSep "" (l.map fun f => "&" ++ f.id ++ "=" ++ f.value)
    else url
  | none => url

/-- URL construction of fetchData (dataCache.ts lines 64-103): the four
    statement blocks of the source applied in order to the base URL. -/
def buildUrl (c : CacheConfig) (o : FetchOptions) : String :=
  columnStage o (globalStage c o (pageStage o (sortStage o
    (c.baseUrl ++ "/" ++ c.endpoint ++ "?"))))

/-- A promise stored in the cache: identified by a creation id (fresh
    per transport call, so reference identity of promises is equality of
    ids) together with the transport URL it fetches. -/
structure Future where
  id : Nat
  url : String
deriving DecidableEq

/-- Explicit state of a DataCache instance: the `Map` of promises, a
    source of fresh promise identities, and the ordered log of transport
    calls that have been issued. -/
structure CacheState where
  entries : List (String × Future) := []
  nextId : Nat := 0
  transportLog : List String := []
deriving DecidableEq

/-- Empty cache, as freshly constructed. -/
def CacheState.empty : CacheState := {}

/-- fetchData (dataCache.ts lines 55-112): on a hit return the stored
    promise unchanged; on a miss build the URL, issue the transport
    call, store the fresh promise in the map before it settles (in this
    single-threaded model the insertion happens in the same atomic step
    that issues the call) and return it.  The promise rejecting later
    changes nothing here: the source installs no rejection handler. -/
def fetchData (c : CacheConfig) (st : CacheState) (o : FetchOptions) :
    Future × CacheState :=
  let cacheKey := getCacheKey c o
  match st.entries.lookup cacheKey with
  | some fut => (fut, st)
  | none =>
    let url := buildUrl c o
    let fut : Future := ⟨st.nextId, url⟩
    (fut, ⟨(cacheKey, fut) :: st.entries, st.nextId + 1, st.transportLog ++ [url]⟩)

/-- prefetchAdjacentPages (dataCache.ts lines 115-137).  The source
    returns void and drops the promises, so the embedding returns only
    the updated cache state. -/
def prefetchAdjacentPages (c : CacheConfig) (st : CacheState) (o : FetchOptions) :
    CacheState :=
  match o.pagination with
  | none => st
  | some p =>
    let stNext :=
      if p.pageIndex < 1000 then
        (fetchData c st { o with pagination := some ⟨p.pageIndex + 1, p.pageSize⟩ }).2
      else st
    if 0 < p.pageIndex then
      (fetchData c stNext { o with pagination := some ⟨p.pageIndex - 1, p.pageSize⟩ }).2
    else stNext

/-- invalidateCache (dataCache.ts lines 154-157): `Map.delete` of the
    derived key. -/
def invalidateCache (c : CacheConfig) (st : CacheState) (o : FetchOptions) : CacheState :=
  { st with entries := st.entries.eraseP fun kv => kv.1 == getCacheKey c o }

/-- clearCache (dataCache.ts lines 149-151). -/
def clearCache (st : CacheState) : CacheState := { st with entries := [] }

/-- Well-formedness of cache states reachable from the empty cache:
    stored promise ids are below the fresh-id counter, and map keys are
    unique (a JavaScript Map cannot hold a key twice). -/
def WF (st : CacheState) : Prop :=
  (∀ kf ∈ st.entries, kf.2.id < st.nextId) ∧ (st.entries.map Prod.fst).Nodup

instance (st : CacheState) : Decidable (WF st) :=
  inferInstanceAs (Decidable ((∀ kf ∈ st.entries, kf.2.id < st.nextId) ∧
    (st.entries.map Prod.fst).Nodup))

/-- Settlement behavior of a promise relative to a transport adapter
    telling which URLs reject.  The cache itself never inspects this;
    it is used to state the stuck-rejection claim. -/
def rejects (adapter : String → Bool) (f : Future) : Bool := adapter f.url

/-! Provider layer. -/

/-- Json-server response envelope (jsonServerBaseDataProvider.ts
    lines 3-11). -/
structure JsonResponse (TData : Type) where
  first : Int
  prev : Int
  next : Int
  last : Int
  pages : Int
  items : Int
  data : List TData
deriving DecidableEq

/-- BaseDataProvider (ProductTable.tsx lines 498-560): binds a cache
    configuration and a construction-time initial response. -/
structure BaseDataProvider (TResponse : Type) where
  config : CacheConfig
  initialData : TResponse

/-- getInitialData (ProductTable.tsx lines 530-532) returns the stored
    initial response.  It receives the cache state only so the theorem
    can state that no fetch happens: the state passes through
    untouched. -/
def getInitialData {R : Type} (p : BaseDataProvider R) (st : CacheState) :
    R × CacheState :=
  (p.initialData, st)

/-- Row accessor of JsonServerBaseDataProvider (lines 24-26). -/
def getRowData {T : Type} (r : JsonResponse T) : List T := r.data

/-- Row-count accessor of JsonServerBaseDataProvider (lines 34-36). -/
def getRowCount {T : Type} (r : JsonResponse T) : Int := r.items

/-- Page-count accessor of JsonServerBaseDataProvider (lines 44-46). -/
def getPageCount {T : Type} (r : JsonResponse T) : Int := r.pages

/-- Initial empty response of the json-server providers (the
    `initialResponse` constant of the user and product providers). -/
def initialResponse (T : Type) : JsonResponse T := ⟨0, 0, 0, 0, 0, 0, []⟩

/-! Cache behavior lemmas. -/

/-- Key derivation exactly as worded in specification section 4.1: the
    six numbered steps producing the sort, page, filter, column-filter
    and extra-params segments, the extra segment appended only when
    step five produced output. -/
def specDeriveKey (endpointName : String) (o : FetchOptions) : String :=
  let sortStep :=
    match o.sorting with
    | some l =>
      if 0 < l.length then
        joinSep "," (l.map fun s => s.id ++ ":" ++ (if s.desc then "true" else "false"))
      else ""
    | none => ""
  let pageStep :=
    match o.pagination with
    | some p => "page=" ++ natDec p.pageIndex ++ ",size=" ++ natDec p.pageSize
    | none => "page=0,size=10"
  let filterStep := o.globalFilter.getD ""
  let columnStep :=
    match o.columnFilters with
    | some l =>
      if 0 < l.length then joinSep "," (l.map fun f => f.id ++ ":" ++ f.value) else ""
    | none => ""
  let extraStep :=
    joinSep "|"
      ((o.extra.filter fun kv => !(reservedNames.contains kv.1)).map
        fun kv => kv.1 ++ ":" ++ kv.2)
  endpointName ++ "|" ++ sortStep ++ "|" ++ pageStep ++ "|" ++ filterStep ++ "|" ++
    columnStep ++ (if extraStep ≠ "" then "|" ++ extraStep else "")

/-- Sort parameter of the URL format claimed in specification section 6,
    with its following ampersand separator when present. -/
def specSortPart (o : FetchOptions) : String :=
  match o.sorting with
  | some l =>
    if 0 < l.length then
      "_sort=" ++ joinSep "," (l.map fun s => (if s.desc then "-" else "") ++ s.id) ++ "&"
    else ""
  | none => ""

/-- Pagination parameters of the claimed URL format: 1-indexed page
    number and page size, defaulting to page 1 of size 10. -/
def specPagePart (o : FetchOptions) : String :=
  match o.pagination with
  | some p => "_page=" ++ natDec (p.pageIndex + 1) ++ "&_per_page=" ++ natDec p.pageSize
  | none => "_page=1&_per_page=10"

/-- Global-filter parameter of the claimed URL format, emitted only when
    a field name is configured and the filter string is nonempty. -/
def specGlobalPart (c : CacheConfig) (o : FetchOptions) : String :=
  match o.globalFilter, c.globalFilterField with
  | some g, some gf => if g ≠ "" ∧ gf ≠ "" then "&" ++ gf ++ "=" ++ g else ""
  | _, _ => ""

/-- Column-filter parameters of the claimed URL format: each filter as
    its own query parameter named after the field id. -/
def specColumnPart (o : FetchOptions) : String :=
  match o.columnFilters with
  | some l => joinSep "" (l.map fun f => "&" ++ f.id ++ "=" ++ f.value)
  | none => ""

/-- URL format exactly as the specification claims it. -/
def specUrlClaimed (c : CacheConfig) (o : FetchOptions) : String :=
  c.baseUrl ++ "/" ++ c.endpoint ++ "?" ++ specSortPart o ++ specPagePart o ++
    specGlobalPart c o ++ specColumnPart o

/-- Column-filter block as the code actually emits it: one extra
    ampersand separator precedes the block, so the first filter follows
    a doubled ampersand. -/
def specColumnPartAmended (o : FetchOptions) : String :=
  match o.columnFilters with
  | some l =>
    if 0 < l.length then
      "&" ++ joinSep "" (l.map fun f => "&" ++ f.id ++ "=" ++ f.value)
    else ""
  | none => ""

/-- Amended URL format: identical to the claimed one except for the
    extra ampersand before a nonempty column-filter block. -/
def specUrlAmended (c : CacheConfig) (o : FetchOptions) : String :=
  c.baseUrl ++ "/" ++ c.endpoint ++ "?" ++ specSortPart o ++ specPagePart o ++
    specGlobalPart c o ++ specColumnPartAmended o

/-! Concrete sample inputs used by witnesses and counterexamples. -/

/-- Sample configuration: the products endpoint of the app. -/
def sampleCfg : CacheConfig := ⟨"http://localhost:3000", "products", some "name"⟩

/-- Sample descriptor: first page, sorted by name ascending. -/
def sampleOpts : FetchOptions :=
  { sorting := some [⟨"name", false⟩], pagination := some ⟨0, 10⟩ }

/-- Cache state after one fetch of the sample descriptor. -/
def sampleState : CacheState := (fetchData sampleCfg CacheState.empty sampleOpts).2

/-- The promise created by that fetch. -/
def sampleFuture : Future := (fetchData sampleCfg CacheState.empty sampleOpts).1

/-- A transport adapter whose every request rejects. -/
def alwaysReject : String → Bool := fun _ => true

/-- Configuration for the key-derivation examples. -/
def orderCfg : CacheConfig := ⟨"http://localhost:3000", "users", none⟩

/-- Two-column sort in one order. -/
def sortAB : FetchOptions := { sorting := some [⟨"a", false⟩, ⟨"b", false⟩] }

/-- The same two-column sort in the opposite array order. -/
def sortBA : FetchOptions := { sorting := some [⟨"b", false⟩, ⟨"a", false⟩] }

/-- Two column filters in one order. -/
def filtersXY : FetchOptions := { columnFilters := some [⟨"x", "1"⟩, ⟨"y", "2"⟩] }

/-- The same two column filters in the opposite array order. -/
def filtersYX : FetchOptions := { columnFilters := some [⟨"y", "2"⟩, ⟨"x", "1"⟩] }

/-- One column filter whose value embeds the joint separators. -/
def collideA : FetchOptions := { columnFilters := some [⟨"a", "1,b:2"⟩] }

/-- Two plain column filters deriving the same key as `collideA`. -/
def collideB : FetchOptions := { columnFilters := some [⟨"a", "1"⟩, ⟨"b", "2"⟩] }

/-- Configuration for the URL-format counterexample. -/
def cexCfg : CacheConfig := ⟨"http://api", "products", none⟩

/-- Descriptor with a single column filter. -/
def cexOpts : FetchOptions := { columnFilters := some [⟨"category", "books"⟩] }

/-- Descriptor without pagination. -/
def noPageOpts : FetchOptions := { sorting := some [⟨"name", false⟩] }

/-- Fuel irrelevance for `natDecAux`: any fuel at least the argument
    produces the same digit list. -/
theorem natDecAux_congr : ∀ f g n : Nat, n ≤ f → n ≤ g → natDecAux f n = natDecAux g n := by
  intro f
  induction f with
  | zero =>
    intro g n hf _
    have hn : n = 0 := Nat.le_zero.mp hf
    subst hn
    cases g with
    | zero => rfl
    | succ g => simp [natDecAux]
  | succ f ih =>
    intro g n hf hg
    cases g with
    | zero =>
      have hn : n = 0 := Nat.le_zero.mp hg
      subst hn
      simp [natDecAux]
    | succ g =>
      by_cases h10 : n < 10
      · simp [natDecAux, h10]
      · simp only [natDecAux, if_neg h10]
        have hd : n / 10 ≤ f := by omega
        have hd' : n / 10 ≤ g := by omega
        rw [ih g (n / 10) hd hd']

/-- Unfolding rule for `natDecChars` that hides the fuel. -/
theorem natDecChars_eq (n : Nat) :
    natDecChars n =
      if n < 10 then [Nat.digitChar n]
      else natDecChars (n / 10) ++ [Nat.digitChar (n % 10)] := by
  by_cases h10 : n < 10
  · cases n with
    | zero => simp [natDecChars, natDecAux]
    | succ m => simp [natDecChars, natDecAux, h10]
  · cases n with
    | zero => omega
    | succ m =>
      simp only [natDecChars, natDecAux, if_neg h10]
      congr 1
      exact natDecAux_congr m ((m + 1) / 10) ((m + 1) / 10) (by omega) (Nat.le_refl _)

theorem natDecChars_ne_nil (n : Nat) : natDecChars n ≠ [] := by
  rw [natDecChars_eq]
  by_cases h : n < 10 <;> simp [h]

/-- Digit characters are distinct below the base. -/
theorem digitChar_inj_lt :
    ∀ a : Nat, a < 10 → ∀ b : Nat, b < 10 → Nat.digitChar a = Nat.digitChar b → a = b := by
  decide

/-- The digit list of a natural number determines the number. -/
theorem natDecChars_inj : ∀ m n : Nat, natDecChars m = natDecChars n → m = n := by
  intro m
  induction m using Nat.strong_induction_on with
  | _ m ih =>
    intro n h
    rw [natDecChars_eq m, natDecChars_eq n] at h
    by_cases hm : m < 10 <;> by_cases hn : n < 10
    · rw [if_pos hm, if_pos hn] at h
      simp only [List.cons.injEq, and_true] at h
      exact digitChar_inj_lt m hm n hn h
    · rw [if_pos hm, if_neg hn] at h
      have hlen := congrArg List.length h
      simp at hlen
      exact absurd hlen (natDecChars_ne_nil _)
    · rw [if_neg hm, if_pos hn] at h
      have hlen := congrArg List.length h
      simp at hlen
      exact absurd hlen (natDecChars_ne_nil _)
    · rw [if_neg hm, if_neg hn] at h
      obtain ⟨h1, h2⟩ := List.append_inj' h rfl
      have hq : m / 10 = n / 10 :=
        ih (m / 10) (Nat.div_lt_self (by omega) (by omega)) (n / 10) h1
      simp only [List.cons.injEq, and_true] at h2
      have hr : m % 10 = n % 10 :=
        digitChar_inj_lt (m % 10) (Nat.mod_lt _ (by omega)) (n % 10) (Nat.mod_lt _ (by omega)) h2
      omega

theorem natDec_inj {m n : Nat} (h : natDec m = natDec n) : m = n :=
  natDecChars_inj m n (congrArg String.data h)

/-- The last character of a decimal string is a digit character. -/
theorem natDecChars_getLast (n : Nat) :
    ∃ d, d < 10 ∧ (natDecChars n).getLast? = some (Nat.digitChar d) := by
  rw [natDecChars_eq]
  by_cases h : n < 10
  · exact ⟨n, h, by simp [h]⟩
  · exact ⟨n % 10, Nat.mod_lt _ (by omega), by simp [h, List.getLast?_concat]⟩

theorem digitChar_ne_qmark : ∀ d : Nat, d < 10 → Nat.digitChar d ≠ '?' := by decide

/-! String helpers -/

theorem string_empty_data : ("" : String).data = [] := rfl

theorem string_data_eq_nil_iff (s : String) : s.data = [] ↔ s = "" := by
  constructor
  · intro h
    apply String.ext
    rw [h, string_empty_data]
  · intro h
    rw [h, string_empty_data]

/-- Appending a string with nonempty data keeps its last character. -/
theorem getLast_data_append (s t : String) (h : t.data ≠ []) :
    (s ++ t).data.getLast? = t.data.getLast? := by
  rw [String.data_append, List.getLast?_append]
  cases ht : t.data.getLast? with
  | none => exact absurd (List.getLast?_eq_none_iff.mp ht) h
  | some c => rfl

theorem joinSep_cons (sep a : String) (l : List String) (h : l ≠ []) :
    joinSep sep (a :: l) = a ++ sep ++ joinSep sep l := by
  cases l with
  | nil => exact absurd rfl h
  | cons b t => rfl

/-- The last character of a joined list is the last character of its
    last element, provided that element is nonempty. -/
theorem joinSep_getLast (sep x : String) (l : List String) (hx : x.data ≠ []) :
    (joinSep sep (l ++ [x])).data.getLast? = x.data.getLast? := by
  induction l with
  | nil => rfl
  | cons a t ih =>
    rw [List.cons_append, joinSep_cons sep a (t ++ [x]) (by simp)]
    have hne : (joinSep sep (t ++ [x])).data ≠ [] := by
      intro hcon
      have h0 : (joinSep sep (t ++ [x])).data.getLast? = none := by rw [hcon]; rfl
      rw [ih] at h0
      exact hx (List.getLast?_eq_none_iff.mp h0)
    rw [getLast_data_append _ _ hne, ih]

/-! Data model: the Query Descriptor (`FetchOptions`) of the source. -/

theorem lookup_eraseP_other (k k' : String) (hne : k' ≠ k) :
    ∀ l : List (String × Future),
      (l.eraseP fun kv => kv.1 == k).lookup k' = l.lookup k' := by
  intro l
  induction l with
  | nil => rfl
  | cons a t ih =>
    obtain ⟨ka, fa⟩ := a
    by_cases hka : ka = k
    · subst hka
      rw [List.eraseP_cons_of_pos (by simp), List.lookup_cons]
      have hbeq : (k' == ka) = false := by simp [hne]
      simp [hbeq]
    · rw [List.eraseP_cons_of_neg (by simp [hka]), List.lookup_cons, List.lookup_cons, ih]

theorem lookup_eraseP_self (k : String) :
    ∀ l : List (String × Future), (l.map Prod.fst).Nodup →
      (l.eraseP fun kv => kv.1 == k).lookup k = none := by
  intro l
  induction l with
  | nil => intro _; rfl
  | cons a t ih =>
    obtain ⟨ka, fa⟩ := a
    intro hnd
    simp only [List.map_cons, List.nodup_cons] at hnd
    obtain ⟨hka_nin, hnd'⟩ := hnd
    by_cases hka : ka = k
    · subst hka
      rw [List.eraseP_cons_of_pos (by simp)]
      rw [List.lookup_eq_none_iff]
      intro q hq
      have hmem : q.1 ∈ t.map Prod.fst := List.mem_map_of_mem _ hq
      have hne : ka ≠ q.1 := fun he => hka_nin (he ▸ hmem)
      exact bne_iff_ne.mpr hne
    · rw [List.eraseP_cons_of_neg (by simp [hka]), List.lookup_cons]
      have hbeq : (k == ka) = false := by
        simp only [beq_eq_false_iff_ne, ne_eq]
        exact fun he => hka he.symm
      simp only [hbeq]
      exact ih hnd'

theorem eraseP_lookup_none (k : String) (l : List (String × Future))
    (h : l.lookup k = none) : (l.eraseP fun kv => kv.1 == k) = l := by
  apply List.eraseP_of_forall_not
  intro a ha
  rw [List.lookup_eq_none_iff] at h
  have hne := h a ha
  simp only [bne_iff_ne, ne_eq] at hne
  simp only [beq_eq_false_iff_ne, ne_eq, Bool.not_eq_true]
  exact fun he => hne he.symm

theorem fetchData_hit (c : CacheConfig) (st : CacheState) (o : FetchOptions) (f : Future)
    (h : st.entries.lookup (getCacheKey c o) = some f) : fetchData c st o = (f, st) := by
  simp only [fetchData, h]

theorem fetchData_miss (c : CacheConfig) (st : CacheState) (o : FetchOptions)
    (h : st.entries.lookup (getCacheKey c o) = none) :
    fetchData c st o =
      (⟨st.nextId, buildUrl c o⟩,
       ⟨(getCacheKey c o, ⟨st.nextId, buildUrl c o⟩) :: st.entries, st.nextId + 1,
        st.transportLog ++ [buildUrl c o]⟩) := by
  simp only [fetchData, h]

theorem fetchData_lookup_other (c : CacheConfig) (st : CacheState) (o : FetchOptions)
    (k : String) (hk : k ≠ getCacheKey c o) :
    (fetchData c st o).2.entries.lookup k = st.entries.lookup k := by
  cases hl : st.entries.lookup (getCacheKey c o) with
  | some f => rw [fetchData_hit c st o f hl]
  | none =>
    rw [fetchData_miss c st o hl]
    rw [List.lookup_cons]
    have hbeq : (k == getCacheKey c o) = false := by simp [hk]
    simp [hbeq]

/-- Full cache keys with equal segments everywhere except the page
    segment are distinct. -/
theorem getCacheKey_ne_of_pageSeg_ne (c : CacheConfig) (o o' : FetchOptions)
    (hs : sortSeg o = sortSeg o') (hf : filterSeg o = filterSeg o')
    (hc : columnFilterSeg o = columnFilterSeg o') (hx : customSeg o = customSeg o')
    (hp : pageSeg o ≠ pageSeg o') : getCacheKey c o ≠ getCacheKey c o' := by
  intro h
  apply hp
  unfold getCacheKey at h
  rw [hs, hf, hc, hx] at h
  have hd := congrArg String.data h
  simp only [String.data_append, List.append_assoc] at hd
  have h1 := List.append_cancel_left hd
  have h2 := List.append_cancel_left h1
  have h3 := List.append_cancel_left h2
  have h4 := List.append_cancel_left h3
  exact String.ext (List.append_cancel_right h4)

theorem pageSeg_ne (a b sz : Nat) (hne : a ≠ b) :
    ("page=" ++ natDec a ++ ",size=" ++ natDec sz : String) ≠
      "page=" ++ natDec b ++ ",size=" ++ natDec sz := by
  intro h
  apply hne
  apply natDec_inj
  apply String.ext
  have hd := congrArg String.data h
  simp only [String.data_append, List.append_assoc] at hd
  have h1 := List.append_cancel_left hd
  exact List.append_cancel_right h1

/-- C1: if the map already holds an entry for the derived key, fetchData
returns that stored promise unchanged and issues no transport call; on a
miss it stores the fresh promise in the map and returns it, having made
exactly one transport call, so a second fetchData with the same
descriptor issued before anything else happens returns the identical
promise with no further transport call. -/
theorem fetchData_coalesces (c : CacheConfig) (st : CacheState) (o : FetchOptions) :
    (∀ f, st.entries.lookup (getCacheKey c o) = some f → fetchData c st o = (f, st)) ∧
    (st.entries.lookup (getCacheKey c o) = none →
      (fetchData c st o).2.entries.lookup (getCacheKey c o) = some (fetchData c st o).1 ∧
      (fetchData c st o).2.transportLog = st.transportLog ++ [buildUrl c o] ∧
      fetchData c (fetchData c st o).2 o = ((fetchData c st o).1, (fetchData c st o).2)) := by
  constructor
  · intro f h
    exact fetchData_hit c st o f h
  · intro h
    rw [fetchData_miss c st o h]
    exact ⟨List.lookup_cons_self, rfl, fetchData_hit _ _ _ _ List.lookup_cons_self⟩

/-- Witness for C1 at the sample descriptor on the empty cache. -/
theorem fetchData_coalesces_witness :
    (fetchData sampleCfg CacheState.empty sampleOpts).2.entries.lookup
        (getCacheKey sampleCfg sampleOpts) =
      some (fetchData sampleCfg CacheState.empty sampleOpts).1 ∧
    (fetchData sampleCfg CacheState.empty sampleOpts).2.transportLog =
      CacheState.empty.transportLog ++ [buildUrl sampleCfg sampleOpts] ∧
    fetchData sampleCfg (fetchData sampleCfg CacheState.empty sampleOpts).2 sampleOpts =
      ((fetchData sampleCfg CacheState.empty sampleOpts).1,
       (fetchData sampleCfg CacheState.empty sampleOpts).2) :=
  (fetchData_coalesces sampleCfg CacheState.empty sampleOpts).2 rfl

/-- C2: a cached promise (in particular a rejected one, against an
adapter whose every request rejects) stays cached: fetchData keeps
returning that same promise with no new transport call and without
removing the entry, until invalidateCache or clearCache removes it,
after which the next fetchData issues a genuinely new transport call
producing a distinct fresh promise that rejects again. -/
theorem fetchData_rejected_sticky (adapter : String → Bool) (c : CacheConfig)
    (st : CacheState) (o : FetchOptions) (f : Future)
    (hadapter : ∀ u, adapter u = true) (hwf : WF st)
    (hf : st.entries.lookup (getCacheKey c o) = some f) :
    rejects adapter f = true ∧
    fetchData c st o = (f, st) ∧
    (fetchData c (invalidateCache c st o) o).2.transportLog =
      st.transportLog ++ [buildUrl c o] ∧
    (fetchData c (invalidateCache c st o) o).1 ≠ f ∧
    rejects adapter (fetchData c (invalidateCache c st o) o).1 = true ∧
    (fetchData c (clearCache st) o).2.transportLog =
      st.transportLog ++ [buildUrl c o] := by
  have hmiss : (invalidateCache c st o).entries.lookup (getCacheKey c o) = none :=
    lookup_eraseP_self _ _ hwf.2
  have hmem : (getCacheKey c o, f) ∈ st.entries := by
    rw [List.lookup_eq_some_iff] at hf
    obtain ⟨l₁, l₂, hl, _⟩ := hf
    rw [hl]
    exact List.mem_append_right _ (List.mem_cons_self _ _)
  have hid : f.id < st.nextId := hwf.1 _ hmem
  refine ⟨hadapter _, fetchData_hit c st o f hf, ?_, ?_, ?_, ?_⟩
  · rw [fetchData_miss c _ o hmiss]
    rfl
  · rw [fetchData_miss c _ o hmiss]
    intro he
    have : st.nextId = f.id := congrArg Future.id he
    omega
  · exact hadapter _
  · have hclear : (clearCache st).entries.lookup (getCacheKey c o) = none := rfl
    rw [fetchData_miss c _ o hclear]
    rfl

/-- Witness for C2 at the sample state holding one cached promise. -/
theorem fetchData_rejected_sticky_witness :
    rejects alwaysReject sampleFuture = true ∧
    fetchData sampleCfg sampleState sampleOpts = (sampleFuture, sampleState) ∧
    (fetchData sampleCfg (invalidateCache sampleCfg sampleState sampleOpts) sampleOpts).1 ≠
      sampleFuture :=
  have h := fetchData_rejected_sticky alwaysReject sampleCfg sampleState sampleOpts
    sampleFuture (fun _ => rfl) (by decide) (by decide)
  ⟨h.1, h.2.1, h.2.2.2.1⟩

/-- C4: the cache key is assembled as endpoint, sort, page, filter and
column-filter segments joined by vertical bars, with the extra-params
segment appended only when nonempty, exactly as the specification words
it; the sample products descriptor derives the documented key. -/
theorem getCacheKey_matches_spec (c : CacheConfig) (o : FetchOptions) :
    getCacheKey c o = specDeriveKey c.endpoint o ∧
    getCacheKey ⟨"http://localhost:3000", "products", none⟩
        { sorting := some [⟨"name", false⟩], pagination := some ⟨0, 10⟩ } =
      "products|name:false|page=0,size=10||" :=
  ⟨rfl, by decide⟩

/-- C6: invalidateCache removes at most the entry of the derived key:
lookups under every other key are unchanged, the call is a no-op when
the key is absent, no transport happens, and on a well-formed state the
key is gone afterwards so the next fetchData for the descriptor misses
and issues a new transport call. -/
theorem invalidateCache_frame (c : CacheConfig) (st : CacheState) (o : FetchOptions) :
    (∀ k, k ≠ getCacheKey c o →
      (invalidateCache c st o).entries.lookup k = st.entries.lookup k) ∧
    (st.entries.lookup (getCacheKey c o) = none → invalidateCache c st o = st) ∧
    (invalidateCache c st o).transportLog = st.transportLog ∧
    (WF st →
      (invalidateCache c st o).entries.lookup (getCacheKey c o) = none ∧
      (fetchData c (invalidateCache c st o) o).2.transportLog =
        st.transportLog ++ [buildUrl c o]) := by
  refine ⟨?_, ?_, rfl, ?_⟩
  · intro k hk
    exact lookup_eraseP_other _ _ hk _
  · intro h
    unfold invalidateCache
    rw [eraseP_lookup_none _ _ h]
  · intro hwf
    have hmiss := lookup_eraseP_self (getCacheKey c o) _ hwf.2
    exact ⟨hmiss, by rw [fetchData_miss c _ o hmiss]; rfl⟩

/-- Witness for C6 at the sample state: the frame at a different key,
the no-op on the empty cache, and the miss-after-invalidate. -/
theorem invalidateCache_frame_witness :
    (invalidateCache sampleCfg sampleState sampleOpts).entries.lookup "other" =
      sampleState.entries.lookup "other" ∧
    invalidateCache sampleCfg CacheState.empty sampleOpts = CacheState.empty ∧
    (invalidateCache sampleCfg sampleState sampleOpts).entries.lookup
      (getCacheKey sampleCfg sampleOpts) = none ∧
    (fetchData sampleCfg (invalidateCache sampleCfg sampleState sampleOpts)
        sampleOpts).2.transportLog =
      sampleState.transportLog ++ [buildUrl sampleCfg sampleOpts] :=
  have h1 := (invalidateCache_frame sampleCfg sampleState sampleOpts).1 "other" (by decide)
  have h2 := (invalidateCache_frame sampleCfg CacheState.empty sampleOpts).2.1 rfl
  have h3 := (invalidateCache_frame sampleCfg sampleState sampleOpts).2.2.2 (by decide)
  ⟨h1, h2, h3.1, h3.2⟩

/-- C7: key derivation is sensitive to array order: two descriptors
differing only in the order of their sorting entries derive different
keys, and likewise for column filters. -/
theorem getCacheKey_order_sensitive :
    (sortAB.pagination = sortBA.pagination ∧ sortAB.columnFilters = sortBA.columnFilters ∧
      sortAB.globalFilter = sortBA.globalFilter ∧ sortAB.extra = sortBA.extra ∧
      getCacheKey orderCfg sortAB ≠ getCacheKey orderCfg sortBA) ∧
    (filtersXY.sorting = filtersYX.sorting ∧ filtersXY.pagination = filtersYX.pagination ∧
      filtersXY.globalFilter = filtersYX.globalFilter ∧ filtersXY.extra = filtersYX.extra ∧
      getCacheKey orderCfg filtersXY ≠ getCacheKey orderCfg filtersYX) := by
  decide

/-- C8: getInitialData returns the construction-time initial response
and passes the cache state through untouched (no fetch), and the
json-server accessors on the all-zero initial response yield the empty
row list, zero row count and zero page count. -/
theorem getInitialData_initial (T : Type) (p : BaseDataProvider (JsonResponse T))
    (st : CacheState) :
    getInitialData p st = (p.initialData, st) ∧
    getRowData (initialResponse T) = [] ∧
    getRowCount (initialResponse T) = 0 ∧
    getPageCount (initialResponse T) = 0 :=
  ⟨rfl, rfl, rfl, rfl⟩

/-- C9: key derivation is not injective: one filter whose value embeds
the separator characters collides with two plain filters, the built
URLs nevertheless differ, and a fetchData for the second descriptor
returns the promise cached for the first without any transport call. -/
theorem getCacheKey_not_injective :
    collideA ≠ collideB ∧
    getCacheKey orderCfg collideA = getCacheKey orderCfg collideB ∧
    buildUrl orderCfg collideA ≠ buildUrl orderCfg collideB ∧
    fetchData orderCfg (fetchData orderCfg CacheState.empty collideA).2 collideB =
      ((fetchData orderCfg CacheState.empty collideA).1,
       (fetchData orderCfg CacheState.empty collideA).2) := by
  decide

/-- C10: an empty global filter is indistinguishable from an absent one
at the cache boundary: same derived key, same built URL, and fetchData
behaves identically on every state, so both descriptors share one
entry. -/
theorem globalFilter_empty_eq_absent (c : CacheConfig) (st : CacheState) (o : FetchOptions) :
    getCacheKey c { o with globalFilter := some "" } =
      getCacheKey c { o with globalFilter := none } ∧
    buildUrl c { o with globalFilter := some "" } =
      buildUrl c { o with globalFilter := none } ∧
    fetchData c st { o with globalFilter := some "" } =
      fetchData c st { o with globalFilter := none } := by
  have hurl : buildUrl c { o with globalFilter := some "" } =
      buildUrl c { o with globalFilter := none } := by
    have hg : ∀ u, globalStage c { o with globalFilter := some "" } u =
        globalStage c { o with globalFilter := none } u := by
      intro u
      cases hgf : c.globalFilterField with
      | none => simp [globalStage, hgf]
      | some gf => simp [globalStage, hgf]
    unfold buildUrl
    rw [hg]
    rfl
  refine ⟨rfl, hurl, ?_⟩
  simp only [fetchData, hurl]
  rfl

/-- C5: prefetchAdjacentPages does nothing without pagination; with page
index p it performs fetchData for page p+1 (same page size, identical
sorting, filters and extra state) exactly when p < 1000 and then
fetchData for page p-1 exactly when p > 0; it never touches the cache
entry of the current page and returns only the updated state, no
promise. -/
theorem prefetchAdjacentPages_policy (c : CacheConfig) (st : CacheState) (o : FetchOptions) :
    (o.pagination = none → prefetchAdjacentPages c st o = st) ∧
    (∀ p sz, o.pagination = some ⟨p, sz⟩ →
      prefetchAdjacentPages c st o =
        (if 0 < p then
          (fetchData c
            (if p < 1000 then
              (fetchData c st { o with pagination := some ⟨p + 1, sz⟩ }).2
            else st)
            { o with pagination := some ⟨p - 1, sz⟩ }).2
        else
          (if p < 1000 then
            (fetchData c st { o with pagination := some ⟨p + 1, sz⟩ }).2
          else st)) ∧
      (prefetchAdjacentPages c st o).entries.lookup (getCacheKey c o) =
        st.entries.lookup (getCacheKey c o)) := by
  constructor
  · intro h
    unfold prefetchAdjacentPages
    rw [h]
  · intro p sz hpag
    have hpageSeg : pageSeg o = "page=" ++ natDec p ++ ",size=" ++ natDec sz := by
      simp [pageSeg, hpag]
    have hne1 : getCacheKey c o ≠ getCacheKey c { o with pagination := some ⟨p + 1, sz⟩ } := by
      apply getCacheKey_ne_of_pageSeg_ne c o { o with pagination := some ⟨p + 1, sz⟩ }
        rfl rfl rfl rfl
      rw [hpageSeg]
      show ("page=" ++ natDec p ++ ",size=" ++ natDec sz : String) ≠
        "page=" ++ natDec (p + 1) ++ ",size=" ++ natDec sz
      exact pageSeg_ne p (p + 1) sz (by omega)
    have hstruct : prefetchAdjacentPages c st o =
        (if 0 < p then
          (fetchData c
            (if p < 1000 then
              (fetchData c st { o with pagination := some ⟨p + 1, sz⟩ }).2
            else st)
            { o with pagination := some ⟨p - 1, sz⟩ }).2
        else
          (if p < 1000 then
            (fetchData c st { o with pagination := some ⟨p + 1, sz⟩ }).2
          else st)) := by
      unfold prefetchAdjacentPages
      rw [hpag]
    refine ⟨hstruct, ?_⟩
    rw [hstruct]
    by_cases hpos : 0 < p
    · have hne2 : getCacheKey c o ≠ getCacheKey c { o with pagination := some ⟨p - 1, sz⟩ } := by
        apply getCacheKey_ne_of_pageSeg_ne c o { o with pagination := some ⟨p - 1, sz⟩ }
          rfl rfl rfl rfl
        rw [hpageSeg]
        show ("page=" ++ natDec p ++ ",size=" ++ natDec sz : String) ≠
          "page=" ++ natDec (p - 1) ++ ",size=" ++ natDec sz
        exact pageSeg_ne p (p - 1) sz (by omega)
      rw [if_pos hpos, fetchData_lookup_other _ _ _ _ hne2]
      by_cases h1000 : p < 1000
      · rw [if_pos h1000, fetchData_lookup_other _ _ _ _ hne1]
      · rw [if_neg h1000]
    · rw [if_neg hpos]
      by_cases h1000 : p < 1000
      · rw [if_pos h1000, fetchData_lookup_other _ _ _ _ hne1]
      · omega

/-- Witness for C5 at page zero of the sample descriptor: only page one
is warmed and the current page's entry stays absent. -/
theorem prefetchAdjacentPages_policy_witness :
    prefetchAdjacentPages sampleCfg CacheState.empty sampleOpts =
      (fetchData sampleCfg CacheState.empty
        { sampleOpts with pagination := some ⟨1, 10⟩ }).2 ∧
    (prefetchAdjacentPages sampleCfg CacheState.empty sampleOpts).entries.lookup
      (getCacheKey sampleCfg sampleOpts) = none ∧
    prefetchAdjacentPages sampleCfg CacheState.empty noPageOpts = CacheState.empty := by
  have h := (prefetchAdjacentPages_policy sampleCfg CacheState.empty sampleOpts).2 0 10 rfl
  have h0 := (prefetchAdjacentPages_policy sampleCfg CacheState.empty noPageOpts).1 rfl
  refine ⟨?_, ?_, h0⟩
  · rw [h.1]
    decide
  · rw [h.2]
    rfl

theorem ne_some_qmark {x : Option Char} {ch : Char} (h : x = some ch) (hq : ch ≠ '?') :
    x ≠ some '?' := by
  rw [h]
  intro he
  exact hq (Option.some.inj he)

theorem base_getLast (c : CacheConfig) :
    (c.baseUrl ++ "/" ++ c.endpoint ++ "?").data.getLast? = some '?' := by
  rw [getLast_data_append _ _ (by decide)]
  decide

theorem ampIfNeeded_eq_self (s : String) (h : s.data.getLast? = some '?') :
    ampIfNeeded s = s := by
  unfold ampIfNeeded
  rw [if_pos h]

theorem ampIfNeeded_eq_amp (s : String) (h : s.data.getLast? ≠ some '?') :
    ampIfNeeded s = s ++ "&" := by
  unfold ampIfNeeded
  rw [if_neg h]

theorem getLast_prepend (u t : String) (ch : Char) (h : t.data.getLast? = some ch) :
    (u ++ t).data.getLast? = some ch := by
  have hnn : t.data ≠ [] := by
    intro hn
    rw [List.getLast?_eq_none_iff.mpr hn] at h
    exact Option.noConfusion h
  rw [getLast_data_append u t hnn]
  exact h

/-- The joined sort parameter ends with the last character of the last
    column id, which by hypothesis is not the question mark. -/
theorem sortJoin_getLast (l : List SortEntry) (hl : l ≠ [])
    (hids : ∀ s ∈ l, s.id ≠ "" ∧ s.id.data.getLast? ≠ some '?') :
    ∃ ch, (joinSep "," (l.map fun s => (if s.desc then "-" else "") ++ s.id)).data.getLast? =
        some ch ∧ ch ≠ '?' := by
  obtain ⟨L, y, hly⟩ := (List.eq_nil_or_concat l).resolve_left hl
  rw [List.concat_eq_append] at hly
  subst hly
  rw [List.map_append]
  have hy := hids y (List.mem_append_right _ (List.mem_cons_self _ _))
  have hynil : y.id.data ≠ [] := fun hn => hy.1 ((string_data_eq_nil_iff _).mp hn)
  have hfy : ((if y.desc then "-" else "") ++ y.id).data ≠ [] := by
    rw [String.data_append]
    intro hn
    exact hynil (List.append_eq_nil.mp hn).2
  rw [show List.map (fun s => (if s.desc then "-" else "") ++ s.id) [y] =
      [(if y.desc then "-" else "") ++ y.id] from rfl]
  rw [joinSep_getLast "," _ _ hfy]
  rw [getLast_data_append _ _ hynil]
  cases hch : y.id.data.getLast? with
  | none => exact absurd (List.getLast?_eq_none_iff.mp hch) hynil
  | some ch =>
    refine ⟨ch, rfl, ?_⟩
    intro he
    rw [he] at hch
    exact hy.2 hch

/-- The pagination parameters end with a decimal digit. -/
theorem specPagePart_getLast (o : FetchOptions) :
    ∃ ch, (specPagePart o).data.getLast? = some ch ∧ ch ≠ '?' := by
  cases hp : o.pagination with
  | none =>
    refine ⟨'0', ?_, by decide⟩
    simp only [specPagePart, hp]
    decide
  | some p =>
    obtain ⟨d, hd, hlast⟩ := natDecChars_getLast p.pageSize
    refine ⟨Nat.digitChar d, ?_, digitChar_ne_qmark d hd⟩
    simp only [specPagePart, hp]
    exact getLast_prepend _ _ _ hlast

/-- The sorting and pagination blocks of the builder produce the base
    URL followed by the claimed sort and page parameters. -/
theorem sortPageStages_eq (o : FetchOptions) (u : String)
    (hu : u.data.getLast? = some '?')
    (hsid : ∀ l, o.sorting = some l → ∀ s ∈ l, s.id ≠ "" ∧ s.id.data.getLast? ≠ some '?') :
    pageStage o (sortStage o u) = u ++ specSortPart o ++ specPagePart o := by
  have hamp : ampIfNeeded (sortStage o u) = u ++ specSortPart o := by
    cases hs : o.sorting with
    | none =>
      simp only [sortStage, specSortPart, hs]
      rw [String.append_empty]
      exact ampIfNeeded_eq_self u hu
    | some l =>
      by_cases hl : 0 < l.length
      · simp only [sortStage, specSortPart, hs, if_pos hl]
        rw [ampIfNeeded_eq_self u hu]
        have hlne : l ≠ [] := by
          intro h
          rw [h] at hl
          simp at hl
        obtain ⟨ch, hch, hchq⟩ := sortJoin_getLast l hlne (hsid l hs)
        have hJnil :
            (joinSep "," (l.map fun s => (if s.desc then "-" else "") ++ s.id)).data ≠ [] := by
          intro hn
          rw [List.getLast?_eq_none_iff.mpr hn] at hch
          exact Option.noConfusion hch
        have hEnd : (u ++ "_sort=" ++
            joinSep "," (l.map fun s => (if s.desc then "-" else "") ++ s.id)).data.getLast? ≠
            some '?' := by
          rw [getLast_data_append _ _ hJnil]
          exact ne_some_qmark hch hchq
        rw [ampIfNeeded_eq_amp _ hEnd]
        simp [String.append_assoc]
      · simp only [sortStage, specSortPart, hs, if_neg hl]
        rw [String.append_empty]
        exact ampIfNeeded_eq_self u hu
  unfold pageStage
  cases hp : o.pagination with
  | some p =>
    rw [hamp]
    simp only [specPagePart, hp]
    simp [String.append_assoc]
  | none =>
    rw [hamp]
    simp only [specPagePart, hp]

/-- The global-filter block appends the claimed global parameter and
    leaves the URL ending in a character other than the question mark. -/
theorem globalStage_eq (c : CacheConfig) (o : FetchOptions) (w : String)
    (hw : ∃ ch, w.data.getLast? = some ch ∧ ch ≠ '?')
    (hgfq : ∀ g, o.globalFilter = some g → g.data.getLast? ≠ some '?') :
    globalStage c o w = w ++ specGlobalPart c o ∧
    ∃ ch, (w ++ specGlobalPart c o).data.getLast? = some ch ∧ ch ≠ '?' := by
  obtain ⟨ch0, hch0, hch0q⟩ := hw
  have hwq : w.data.getLast? ≠ some '?' := ne_some_qmark hch0 hch0q
  cases hg : o.globalFilter with
  | none =>
    have hsp : specGlobalPart c o = "" := by
      cases hgf : c.globalFilterField <;> simp [specGlobalPart, hg, hgf]
    have hst : globalStage c o w = w := by
      cases hgf : c.globalFilterField <;> simp [globalStage, hg, hgf]
    rw [hst, hsp, String.append_empty]
    exact ⟨rfl, ch0, hch0, hch0q⟩
  | some g =>
    cases hgf : c.globalFilterField with
    | none =>
      have hsp : specGlobalPart c o = "" := by simp [specGlobalPart, hg, hgf]
      have hst : globalStage c o w = w := by simp [globalStage, hg, hgf]
      rw [hst, hsp, String.append_empty]
      exact ⟨rfl, ch0, hch0, hch0q⟩
    | some gf =>
      by_cases hcond : g ≠ "" ∧ gf ≠ ""
      · have hsp : specGlobalPart c o = "&" ++ gf ++ "=" ++ g := by
          simp [specGlobalPart, hg, hgf, hcond]
        have hst : globalStage c o w = ampIfNeeded w ++ gf ++ "=" ++ g := by
          simp [globalStage, hg, hgf, hcond]
        rw [hst, hsp, ampIfNeeded_eq_amp w hwq]
        constructor
        · simp [String.append_assoc]
        · have hgnil : g.data ≠ [] := fun hn => hcond.1 ((string_data_eq_nil_iff _).mp hn)
          cases hgl : g.data.getLast? with
          | none => exact absurd (List.getLast?_eq_none_iff.mp hgl) hgnil
          | some ch2 =>
            refine ⟨ch2, ?_, ?_⟩
            · exact getLast_prepend _ _ _ (getLast_prepend _ _ _ hgl)
            · intro he
              rw [he] at hgl
              exact (hgfq g hg) hgl
      · have hsp : specGlobalPart c o = "" := by simp [specGlobalPart, hg, hgf, hcond]
        have hst : globalStage c o w = w := by simp [globalStage, hg, hgf, hcond]
        rw [hst, hsp, String.append_empty]
        exact ⟨rfl, ch0, hch0, hch0q⟩

/-- The column-filter block appends its whole parameter list behind one
    extra ampersand, because the URL no longer ends in the question mark
    while every emitted filter string itself starts with an ampersand. -/
theorem columnStage_eq (o : FetchOptions) (x : String)
    (hx : x.data.getLast? ≠ some '?') :
    columnStage o x = x ++ specColumnPartAmended o := by
  cases hcf : o.columnFilters with
  | none => simp [columnStage, specColumnPartAmended, hcf]
  | some l =>
    by_cases hl : 0 < l.length
    · simp only [columnStage, specColumnPartAmended, hcf, if_pos hl]
      rw [ampIfNeeded_eq_amp x hx]
      simp [String.append_assoc]
    · simp [columnStage, specColumnPartAmended, hcf, if_neg hl]

/-- C3 counterexample: with a single column filter the URL the code
builds carries a doubled ampersand before the filter block, so it is not
of the claimed format, which joins every parameter with single
ampersands. -/
theorem buildUrl_claimed_format_cex :
    buildUrl cexCfg cexOpts ≠ specUrlClaimed cexCfg cexOpts ∧
    buildUrl cexCfg cexOpts = "http://api/products?_page=1&_per_page=10&&category=books" ∧
    specUrlClaimed cexCfg cexOpts =
      "http://api/products?_page=1&_per_page=10&category=books" := by
  decide

/-- C3 amended: on a cache miss the URL is built as
base/endpoint?_sort=...&_page=n&_per_page=size&field=value followed by
the column filters, except that one extra ampersand separator precedes a
nonempty column-filter block (the first filter follows a doubled
ampersand); descending sort fields get a minus prefix, the page number
is 1-indexed with default page 1 size 10, and the global filter appears
only when a field name is configured and the filter is nonempty.  The
hypotheses exclude degenerate descriptors whose sort ids or global
filter are empty or themselves end in a question mark, which would
suppress an ampersand. -/
theorem buildUrl_amended_format (c : CacheConfig) (o : FetchOptions)
    (hsid : ∀ l, o.sorting = some l → ∀ s ∈ l, s.id ≠ "" ∧ s.id.data.getLast? ≠ some '?')
    (hgfq : ∀ g, o.globalFilter = some g → g.data.getLast? ≠ some '?') :
    buildUrl c o = specUrlAmended c o := by
  have h12 := sortPageStages_eq o (c.baseUrl ++ "/" ++ c.endpoint ++ "?") (base_getLast c) hsid
  have hend2 : ∃ ch,
      ((c.baseUrl ++ "/" ++ c.endpoint ++ "?") ++ specSortPart o ++
        specPagePart o).data.getLast? = some ch ∧ ch ≠ '?' := by
    obtain ⟨ch, hch, hq⟩ := specPagePart_getLast o
    exact ⟨ch, getLast_prepend _ _ _ hch, hq⟩
  obtain ⟨h3eq, h3end⟩ := globalStage_eq c o _ hend2 hgfq
  have h3endq : (globalStage c o
      ((c.baseUrl ++ "/" ++ c.endpoint ++ "?") ++ specSortPart o ++
        specPagePart o)).data.getLast? ≠ some '?' := by
    obtain ⟨ch, hch, hq⟩ := h3end
    rw [h3eq]
    exact ne_some_qmark hch hq
  unfold buildUrl specUrlAmended
  rw [h12, columnStage_eq o _ h3endq, h3eq]

/-- Witness for the amended C3 at the counterexample inputs. -/
theorem buildUrl_amended_format_witness :
    buildUrl cexCfg cexOpts = specUrlAmended cexCfg cexOpts :=
  buildUrl_amended_format cexCfg cexOpts
    (fun l hl => by simp [cexOpts] at hl)
    (fun g hg => by simp [cexOpts] at hg)

end TableApp
